import Mathlib

/-!
Shallow embedding of the yashd remote shell (src/shell.c, src/yashd.c) and
proofs about its per-client shell engine: the command parser, the jobs table,
the foreground wait loop, the background jobs-table maintainer, the framed
message codec, the message parser, and the thread tables.
-/

namespace Yashd

/-! ## Constants (src/yashd.h, src/yashd_defs.h) -/

def MAX_CONCURRENT_JOBS : Nat := 20

def CHILD_COUNT_SIMPLE : Nat := 1

def CHILD_COUNT_PIPE : Nat := 2

def JOB_STATUS_RUNNING : String := "Running"

def JOB_STATUS_STOPPED : String := "Stopped"

def JOB_STATUS_DONE : String := "Done"

def MSG_START_DELIMITER : Nat := 2

def MSG_END_DELIMITER : Nat := 3

/-! ## Job records (struct _job_info in src/yashd.h) -/

/-- Embedding of `job_info_t` (src/yashd.h:150-168).  `gpid` is a `pid_t`
(int); `jobno` is a `uint8_t`, so the C initializer `EMPTY_ARRAY` (-1) stores
255 in it. -/
structure job_info_t where
  cmd_str : String := ""
  cmd_tok : List String := []
  cmd_tok_len : Nat := 0
  cmd1 : List String := []
  in1 : String := ""
  out1 : String := ""
  err1 : String := ""
  cmd2 : List String := []
  in2 : String := ""
  out2 : String := ""
  err2 : String := ""
  pipe : Bool := false
  bg : Bool := false
  gpid : Int := 0
  jobno : Nat := 0
  status : String := ""
  err_msg : String := ""
deriving DecidableEq

/-- The fresh `job` struct built at the top of `handleNewJob`
(src/shell.c:793-811): all strings empty, flags false, `gpid = EMPTY_ARRAY`
(-1) and `jobno = EMPTY_ARRAY` truncated to `uint8_t` (255). -/
def initJob : job_info_t := { gpid := -1, jobno := 255 }

/-! ## Parser (parseJob, src/shell.c:236-379) -/

def SYNTAX_ERR_1 : String := "syntax error: command should not start with "

def SYNTAX_ERR_2 : String := "syntax error: near token "

def SYNTAX_ERR_3 : String := "syntax error: command should not end with "

def SYNTAX_ERR_4 : String := "syntax error: & should be the last token of the command"

/-- The five metacharacter tokens `parseJob` tests a following token against
(src/shell.c:271-275 and the parallel branches). -/
def isMetaTok (t : String) : Bool :=
  t = "<" || t = ">" || t = "2>" || t = "|" || t = "&"

/-- Store the argument of a redirection token, `<`/`>`/`2>`, into the side
selected by the `pipe` flag (src/shell.c:279-286, 305-312, 331-338). -/
def storeRedir (t next : String) (j : job_info_t) : job_info_t :=
  if t = "<" then
    if j.pipe then { j with in2 := next } else { j with in1 := next }
  else if t = ">" then
    if j.pipe then { j with out2 := next } else { j with out1 := next }
  else
    if j.pipe then { j with err2 := next } else { j with err1 := next }

/-- The token loop of `parseJob` (src/shell.c:259-378).  `i` is the loop
index, `cmdCount` is `cmd_count`; the `Bool` result records whether the loop
ran to completion (`true`) or took one of the early `return`s that set
`err_msg` (`false`).  `i <= 0` on the C `uint32_t` index is `i = 0`;
`cmd_count <= 0` on the nonnegative counter is `cmdCount = 0`;
`i >= cmd_tok_len - 1` is `rest = []`; a redirection consumes its argument by
advancing the loop one extra step (src/shell.c:280). -/
def parseJobAux : List String → Nat → Nat → job_info_t → job_info_t × Bool
  | [], _, _, j => (j, true)
  | t :: rest, i, cmdCount, j =>
    if t = "<" || t = ">" || t = "2>" then
      if i = 0 || cmdCount = 0 then
        ({ j with err_msg := SYNTAX_ERR_1 ++ t }, false)
      else
        match rest with
        | [] => ({ j with err_msg := SYNTAX_ERR_3 ++ t }, false)
        | next :: rest2 =>
          if isMetaTok next then
            ({ j with err_msg := SYNTAX_ERR_2 ++ t }, false)
          else
            parseJobAux rest2 (i + 2) cmdCount (storeRedir t next j)
    else if t = "|" then
      if i = 0 || cmdCount = 0 then
        ({ j with err_msg := SYNTAX_ERR_1 ++ t }, false)
      else
        match rest with
        | [] => ({ j with err_msg := SYNTAX_ERR_3 ++ t }, false)
        | next :: _ =>
          if isMetaTok next then
            ({ j with err_msg := SYNTAX_ERR_2 ++ t }, false)
          else
            parseJobAux rest (i + 1) 0 { j with pipe := true }
    else if t = "&" then
      if rest.isEmpty then
        parseJobAux rest (i + 1) cmdCount { j with bg := true }
      else
        ({ j with err_msg := SYNTAX_ERR_4 }, false)
    else
      if j.pipe then
        parseJobAux rest (i + 1) (cmdCount + 1) { j with cmd2 := j.cmd2 ++ [t] }
      else
        parseJobAux rest (i + 1) (cmdCount + 1) { j with cmd1 := j.cmd1 ++ [t] }

/-- `parseJob` on an already tokenized command line (`tokenizeString`,
src/shell.c:200-218, splits the raw line on single spaces, so a non-ignored
input yields a non-empty token list).  It fills the job slot whose previous
contents are `j` (src/shell.c:251-253 saves `cmd_str` and the tokens first). -/
def parseJob (toks : List String) (j : job_info_t) : job_info_t × Bool :=
  parseJobAux toks 0 0 { j with cmd_tok := toks, cmd_tok_len := toks.length }

theorem append_ne_empty_of_left_ne_empty (s t : String) (h : s.length ≠ 0) :
    s ++ t ≠ "" := by
  intro hc
  have h2 := congrArg String.length hc
  rw [String.length_append] at h2
  simp at h2
  omega

theorem storeRedir_err_msg (t next : String) (j : job_info_t) :
    (storeRedir t next j).err_msg = j.err_msg := by
  unfold storeRedir
  split_ifs <;> rfl

theorem syn1_ne_empty (t : String) : SYNTAX_ERR_1 ++ t ≠ "" :=
  append_ne_empty_of_left_ne_empty _ _ (by decide)

theorem syn2_ne_empty (t : String) : SYNTAX_ERR_2 ++ t ≠ "" :=
  append_ne_empty_of_left_ne_empty _ _ (by decide)

theorem syn3_ne_empty (t : String) : SYNTAX_ERR_3 ++ t ≠ "" :=
  append_ne_empty_of_left_ne_empty _ _ (by decide)

theorem syn4_ne_empty : SYNTAX_ERR_4 ≠ "" := by decide

theorem parseJobAux_err_spec (toks : List String) (i cmdCount : Nat)
    (j : job_info_t) (h : j.err_msg = "") :
    ((parseJobAux toks i cmdCount j).2 = true ∧
      (parseJobAux toks i cmdCount j).1.err_msg = "") ∨
    ((parseJobAux toks i cmdCount j).2 = false ∧
      (parseJobAux toks i cmdCount j).1.err_msg ≠ "") := by
  induction toks, i, cmdCount, j using parseJobAux.induct with
  | case1 i cmdCount j =>
    exact Or.inl ⟨rfl, h⟩
  | case2 t rest i cmdCount j hmeta hfirst =>
    right
    rw [parseJobAux.eq_def]
    simp [hmeta, hfirst, syn1_ne_empty]
  | case3 t i cmdCount j hmeta hfirst =>
    right
    rw [parseJobAux.eq_def]
    simp [hmeta, hfirst, syn3_ne_empty]
  | case4 t i cmdCount j hmeta hfirst next rest2 hnext =>
    right
    rw [parseJobAux.eq_def]
    simp [hmeta, hfirst, hnext, syn2_ne_empty]
  | case5 t i cmdCount j hmeta hfirst next rest2 hnext ih =>
    have h' : (storeRedir t next j).err_msg = "" := by
      rw [storeRedir_err_msg]; exact h
    rw [parseJobAux.eq_def]
    simpa [hmeta, hfirst, hnext] using ih h'
  | case6 rest i cmdCount j hfirst hne =>
    right
    rw [parseJobAux.eq_def]
    simp [hfirst, syn1_ne_empty]
  | case7 i cmdCount j hfirst hne =>
    right
    rw [parseJobAux.eq_def]
    simp [hfirst, syn3_ne_empty]
  | case8 i cmdCount j hfirst next rest2 hnext hne =>
    right
    rw [parseJobAux.eq_def]
    simp [hfirst, hnext, syn2_ne_empty]
  | case9 i cmdCount j hfirst next rest2 hnext hne ih =>
    rw [parseJobAux.eq_def]
    simpa [hfirst, hnext] using ih h
  | case10 rest i cmdCount j hempty hne1 hne2 ih =>
    rw [parseJobAux.eq_def]
    simpa [hempty] using ih h
  | case11 rest i cmdCount j hempty hne1 hne2 =>
    right
    rw [parseJobAux.eq_def]
    simp [hempty, syn4_ne_empty]
  | case12 t rest i cmdCount j hmeta hne1 hne2 hjpipe ih =>
    rw [parseJobAux.eq_def]
    simpa [hmeta, hne1, hne2, hjpipe] using ih h
  | case13 t rest i cmdCount j hmeta hne1 hne2 hjpipe ih =>
    rw [parseJobAux.eq_def]
    simpa [hmeta, hne1, hne2, hjpipe] using ih h

/-- C2: for every non-empty token sequence handed to `parseJob` with a job
slot whose error field is empty (as `handleNewJob` guarantees), the result
either ran the whole token loop to completion with an empty error message, or
took an early return with a non-empty error message — never both. -/
theorem claim_C2_parseJob_total (toks : List String) (j : job_info_t)
    (hne : toks ≠ []) (herr : j.err_msg = "") :
    ((parseJob toks j).2 = true ∧ (parseJob toks j).1.err_msg = "") ∨
    ((parseJob toks j).2 = false ∧ (parseJob toks j).1.err_msg ≠ "") := by
  unfold parseJob
  exact parseJobAux_err_spec toks 0 0 _ herr

theorem claim_C2_parseJob_total_witness :
    ((parseJob ["ls"] initJob).2 = true ∧ (parseJob ["ls"] initJob).1.err_msg = "") ∨
    ((parseJob ["ls"] initJob).2 = false ∧ (parseJob ["ls"] initJob).1.err_msg ≠ "") :=
  claim_C2_parseJob_total ["ls"] initJob (by decide) rfl

/-- C3 counterexample: on the single-token input `&`, `parseJob` does not set
any error message (the `&` branch, src/shell.c:361-368, has no first-token
check): the command is accepted as an empty background job. -/
theorem claim_C3_counterexample :
    (parseJob ["&"] initJob).1.err_msg = "" ∧
    (parseJob ["&"] initJob).1.bg = true ∧
    (parseJob ["&"] initJob).1.cmd1 = [] := by
  refine ⟨rfl, rfl, rfl⟩

/-- Specification-side rule scan, written from the amended claim's words (not
from the source), for comparison with `parseJobAux`: walk the tokens left to
right and report the first rule that fires.  `atStart` holds at position 0
and immediately after a `|` (the "first token" condition).  For `<`, `>`,
`2>`, `|` the rules at each position are, in order: the token must not be at
the start of a command (`syntax error: command should not start with`), must
not be the last token (`syntax error: command should not end with`), and must
not be immediately followed by another metacharacter (`syntax error: near
token`); a valid redirection then skips its argument token and a valid `|`
restarts the command.  The `&` token has a single rule: it must be the last
token (`syntax error: & should be the last token of the command`).  `none`
means no rule fires on the whole sequence. -/
def specFirstRuleError : List String → Bool → Option String
  | [], _ => none
  | t :: rest, atStart =>
    if t = "<" || t = ">" || t = "2>" || t = "|" then
      if atStart then some (SYNTAX_ERR_1 ++ t)
      else
        match rest with
        | [] => some (SYNTAX_ERR_3 ++ t)
        | next :: rest2 =>
          if isMetaTok next then some (SYNTAX_ERR_2 ++ t)
          else if t = "|" then specFirstRuleError (next :: rest2) true
          else specFirstRuleError rest2 false
    else if t = "&" then
      if rest.isEmpty then none else some SYNTAX_ERR_4
    else specFirstRuleError rest false

theorem parseJobAux_err_eq_specFirstRuleError (toks : List String)
    (i cmdCount : Nat) (j : job_info_t) (h : j.err_msg = "") :
    (parseJobAux toks i cmdCount j).1.err_msg =
      (specFirstRuleError toks
        (decide (i = 0) || decide (cmdCount = 0))).getD "" := by
  induction toks, i, cmdCount, j using parseJobAux.induct with
  | case1 i cmdCount j =>
    rw [parseJobAux.eq_def, specFirstRuleError.eq_def]
    simpa using h
  | case2 t rest i cmdCount j hmeta hfirst =>
    rw [parseJobAux.eq_def, specFirstRuleError.eq_def]
    simp only [Bool.or_eq_true, decide_eq_true_eq] at hmeta
    rcases hmeta with (h1 | h1) | h1 <;> subst h1 <;> simp [hfirst]
  | case3 t i cmdCount j hmeta hfirst =>
    rw [parseJobAux.eq_def, specFirstRuleError.eq_def]
    simp only [Bool.or_eq_true, decide_eq_true_eq] at hmeta
    rcases hmeta with (h1 | h1) | h1 <;> subst h1 <;> simp [hfirst]
  | case4 t i cmdCount j hmeta hfirst next rest2 hnext =>
    rw [parseJobAux.eq_def, specFirstRuleError.eq_def]
    simp only [Bool.or_eq_true, decide_eq_true_eq] at hmeta
    rcases hmeta with (h1 | h1) | h1 <;> subst h1 <;> simp [hfirst, hnext]
  | case5 t i cmdCount j hmeta hfirst next rest2 hnext ih =>
    have h' : (storeRedir t next j).err_msg = "" := by
      rw [storeRedir_err_msg]; exact h
    have hcc : ¬ cmdCount = 0 := by
      intro hc
      exact hfirst (by simp [hc])
    have hrec := ih h'
    have hb : (decide (i + 2 = 0) || decide (cmdCount = 0)) = false := by
      simp [hcc]
    rw [hb] at hrec
    rw [parseJobAux.eq_def, specFirstRuleError.eq_def]
    simp only [Bool.or_eq_true, decide_eq_true_eq] at hmeta
    rcases hmeta with (h1 | h1) | h1 <;> subst h1 <;> simp [hfirst, hnext, hrec]
  | case6 rest i cmdCount j hfirst hne =>
    rw [parseJobAux.eq_def, specFirstRuleError.eq_def]
    simp [hfirst]
  | case7 i cmdCount j hfirst hne =>
    rw [parseJobAux.eq_def, specFirstRuleError.eq_def]
    simp [hfirst]
  | case8 i cmdCount j hfirst next rest2 hnext hne =>
    rw [parseJobAux.eq_def, specFirstRuleError.eq_def]
    simp [hfirst, hnext]
  | case9 i cmdCount j hfirst next rest2 hnext hne ih =>
    have hrec := ih h
    have hb : (decide (i + 1 = 0) || decide (0 = 0)) = true := by simp
    rw [hb] at hrec
    rw [parseJobAux.eq_def, specFirstRuleError.eq_def]
    simp [hfirst, hnext, hrec]
  | case10 rest i cmdCount j hempty hne1 hne2 ih =>
    have hr : rest = [] := by simpa using hempty
    subst hr
    rw [parseJobAux.eq_def, specFirstRuleError.eq_def]
    simp [parseJobAux, h]
  | case11 rest i cmdCount j hempty hne1 hne2 =>
    rw [parseJobAux.eq_def, specFirstRuleError.eq_def]
    simp [hempty]
  | case12 t rest i cmdCount j hmeta hne1 hne2 hjpipe ih =>
    have hrec := ih h
    have hb : (decide (i + 1 = 0) || decide (cmdCount + 1 = 0)) = false := by
      simp
    rw [hb, hjpipe] at hrec
    rw [parseJobAux.eq_def, specFirstRuleError.eq_def]
    simp [hmeta, hne1, hne2, hjpipe, hrec]
  | case13 t rest i cmdCount j hmeta hne1 hne2 hjpipe ih =>
    have hrec := ih h
    have hb : (decide (i + 1 = 0) || decide (cmdCount + 1 = 0)) = false := by
      simp
    have hp : j.pipe = false := by simpa using hjpipe
    rw [hb, hp] at hrec
    rw [parseJobAux.eq_def, specFirstRuleError.eq_def]
    simp [hmeta, hne1, hne2, hjpipe, hrec]

/-- C3 amended: on every token sequence, the error message `parseJob` leaves
is exactly the one obtained by scanning the tokens left to right and applying
the first rule that fires — for `<`, `>`, `2>`, `|` the rules are, in order
at each position, not-at-command-start, not-last, not-followed-by-another-
metacharacter; the `&` token is checked only against the last-token rule
(an `&` followed by further tokens yields
`syntax error: & should be the last token of the command`) — and in
particular the single-token input `&` fires no rule: it is accepted with
empty error message as an empty background job. -/
theorem claim_C3_amended :
    (∀ toks : List String, (parseJob toks initJob).1.err_msg =
      (specFirstRuleError toks true).getD "") ∧
    ((parseJob ["&"] initJob).1.err_msg = "" ∧
      (parseJob ["&"] initJob).1.bg = true) := by
  refine ⟨?_, rfl, rfl⟩
  intro toks
  unfold parseJob
  have := parseJobAux_err_eq_specFirstRuleError toks 0 0
    { initJob with cmd_tok := toks, cmd_tok_len := toks.length } rfl
  simpa using this

theorem claim_C3_amended_witness :
    (parseJob ["<", "f"] initJob).1.err_msg = SYNTAX_ERR_1 ++ "<" ∧
    (parseJob ["ls", ">"] initJob).1.err_msg = SYNTAX_ERR_3 ++ ">" ∧
    (parseJob ["ls", "<", ">", "f"] initJob).1.err_msg = SYNTAX_ERR_2 ++ "<" ∧
    (parseJob ["ls", "&", "wc"] initJob).1.err_msg = SYNTAX_ERR_4 ∧
    (parseJob ["ls", "<", "in", "|", "wc"] initJob).1.err_msg = "" :=
  ⟨(claim_C3_amended.1 ["<", "f"]).trans (by decide),
   (claim_C3_amended.1 ["ls", ">"]).trans (by decide),
   (claim_C3_amended.1 ["ls", "<", ">", "f"]).trans (by decide),
   (claim_C3_amended.1 ["ls", "&", "wc"]).trans (by decide),
   (claim_C3_amended.1 ["ls", "<", "in", "|", "wc"]).trans (by decide)⟩

/-! ## Jobs table (src/shell.c) -/

/-- Per-client shell state: the jobs table array and its high-water index
(fields `jobs_table` and `jobs_table_idx` of the shell info struct used by
src/shell.c; the remaining fields — socket, client address, thread tables —
do not participate in the jobs-table operations modelled here, and what the
code writes to the client socket is returned explicitly as a message list). -/
structure shell_info_t where
  jobs_table : Nat → job_info_t
  jobs_table_idx : Nat

/-- A job slot that has never been written (all-zero storage). -/
def emptyJob : job_info_t := {}

def updateTable (t : Nat → job_info_t) (i : Nat) (e : job_info_t) :
    Nat → job_info_t :=
  fun k => if k = i then e else t k

/-- The index-shrinking loop of `removeJob` (src/shell.c:61-68).  The C loop
runs `i` from `jobs_table_idx - 1` down to 0 (the fuel argument counts the
remaining iterations), and each iteration tests
`jobs_table[jobs_table_idx].jobno` — the slot at the *current count*, not at
`i` (compare `removeServantThFromTableByIdx`, src/yashd.c:620-627, which
tests slot `i`) — decrementing the count or breaking out. -/
def removeJobLoop (table : Nat → job_info_t) : Nat → Nat → Nat
  | 0, idx => idx
  | fuel + 1, idx =>
    if (table idx).jobno < 1 then removeJobLoop table fuel (idx - 1) else idx

/-- `removeJob` (src/shell.c:54-69): clear `jobno`, `gpid` and `status` of the
removed slot, then run the shrinking loop over the updated table. -/
def removeJob (job_idx : Nat) (s : shell_info_t) : shell_info_t :=
  let cleared := { s.jobs_table job_idx with jobno := 0, gpid := 0, status := "" }
  let t := updateTable s.jobs_table job_idx cleared
  { jobs_table := t,
    jobs_table_idx := removeJobLoop t s.jobs_table_idx s.jobs_table_idx }

/-- A jobs table holding exactly two Running jobs, numbers 1 and 2. -/
def twoRunningJobs : shell_info_t :=
  { jobs_table := fun k =>
      if k = 0 then
        { emptyJob with jobno := 1, gpid := 101, status := JOB_STATUS_RUNNING,
                        cmd_tok := ["sleep", "10"] }
      else if k = 1 then
        { emptyJob with jobno := 2, gpid := 102, status := JOB_STATUS_RUNNING,
                        cmd_tok := ["sleep", "20"] }
      else emptyJob,
    jobs_table_idx := 2 }

/-- C5: evaluating `removeJob` on a table of two Running jobs.  Removing slot
0 clears it as documented, but the count drops to 1 even though slot 1 is
still Running at index 1 (the claim requires count = 1 + 1 = 2); removing
slot 1 drops the count to 0 even though slot 0 is still Running (the claim
requires count = 1).  The shrink loop tests the slot at the current count
instead of the loop index. -/
theorem claim_C5_removeJob_wrong_count :
    (((removeJob 0 twoRunningJobs).jobs_table 0).jobno = 0 ∧
      ((removeJob 0 twoRunningJobs).jobs_table 0).gpid = 0 ∧
      ((removeJob 0 twoRunningJobs).jobs_table 0).status = "" ∧
      ((removeJob 0 twoRunningJobs).jobs_table 1).jobno = 2 ∧
      ((removeJob 0 twoRunningJobs).jobs_table 1).status = JOB_STATUS_RUNNING ∧
      (removeJob 0 twoRunningJobs).jobs_table_idx = 1) ∧
    (((removeJob 1 twoRunningJobs).jobs_table 0).status = JOB_STATUS_RUNNING ∧
      (removeJob 1 twoRunningJobs).jobs_table_idx = 0) := by
  decide

/-! ## handleNewJob (src/shell.c:790-866) -/

/-- The refusal line built at src/shell.c:827-828 (`MAX_CONCURRENT_JOBS` is
20; no trailing newline). -/
def MAX_JOBS_ERR : String := "-yash: max number of concurrent jobs reached: 20"

/-- Result of one `handleNewJob` call: the updated shell state, the messages
written to the client socket, and whether control reached the `runJob` call
(src/shell.c:856). -/
structure handle_result_t where
  state : shell_info_t
  sent : List String
  ranJob : Bool

/-- `handleNewJob` (src/shell.c:790-866) modelled up to the `runJob` call,
with `verbose` off (the verbose-only messages of src/shell.c:834-838 and
850-854 are not sent).  The admission test at src/shell.c:814 is
`jobs_table_idx - 1 < MAX_CONCURRENT_JOBS` (on the nonnegative C int this
branches identically to the truncated `Nat` subtraction used here); on
refusal nothing is stored.  The error report at src/shell.c:843-844 reads
`err_msg` from slot `jobs_table_idx` — one past the slot `jobs_table_idx - 1`
that was checked at src/shell.c:840. -/
def handleNewJob (toks : List String) (s : shell_info_t) : handle_result_t :=
  if s.jobs_table_idx - 1 < MAX_CONCURRENT_JOBS then
    let admitted : job_info_t :=
      { initJob with jobno := s.jobs_table_idx + 1, status := JOB_STATUS_RUNNING }
    let s1 : shell_info_t :=
      { jobs_table := updateTable s.jobs_table s.jobs_table_idx admitted,
        jobs_table_idx := s.jobs_table_idx + 1 }
    let parsed := (parseJob toks (s1.jobs_table (s1.jobs_table_idx - 1))).1
    let s2 : shell_info_t :=
      { jobs_table := updateTable s1.jobs_table (s1.jobs_table_idx - 1) parsed,
        jobs_table_idx := s1.jobs_table_idx }
    if (s2.jobs_table (s2.jobs_table_idx - 1)).err_msg = "" then
      { state := s2, sent := [], ranJob := true }
    else
      { state := s2,
        sent := ["-yash: " ++ (s2.jobs_table s2.jobs_table_idx).err_msg ++ "\n"],
        ranJob := false }
  else
    { state := s, sent := [MAX_JOBS_ERR], ranJob := false }

/-- A jobs table already holding 20 live (Running) jobs. -/
def fullState : shell_info_t :=
  { jobs_table := fun k =>
      if k < 20 then
        { emptyJob with jobno := k + 1, gpid := 100 + (k : Int),
                        status := JOB_STATUS_RUNNING }
      else emptyJob,
    jobs_table_idx := 20 }

/-- The same table after the 21st admission. -/
def overfullState : shell_info_t :=
  { jobs_table := fun k =>
      if k < 21 then
        { emptyJob with jobno := k + 1, gpid := 100 + (k : Int),
                        status := JOB_STATUS_RUNNING }
      else emptyJob,
    jobs_table_idx := 21 }

/-- C1: evaluating `handleNewJob` on a table already holding 20 live jobs.
The admission test `jobs_table_idx - 1 < 20` passes at `jobs_table_idx = 20`,
so the job is admitted — a 21st entry with `jobno` 21 is written at index 20
(past the end of the 20-entry C array), the count becomes 21, no refusal line
is sent, and the command is parsed and run.  The refusal line is only sent
once the count is already 21. -/
theorem claim_C1_handleNewJob_admits_21st :
    ((handleNewJob ["ls"] fullState).state.jobs_table_idx = 21 ∧
      (handleNewJob ["ls"] fullState).sent = [] ∧
      (handleNewJob ["ls"] fullState).ranJob = true ∧
      ((handleNewJob ["ls"] fullState).state.jobs_table 20).jobno = 21) ∧
    ((handleNewJob ["ls"] overfullState).sent = [MAX_JOBS_ERR] ∧
      (handleNewJob ["ls"] overfullState).ranJob = false ∧
      (handleNewJob ["ls"] overfullState).state.jobs_table_idx = 21) := by
  decide

/-- A shell state with an empty jobs table. -/
def emptyState : shell_info_t :=
  { jobs_table := fun _ => emptyJob, jobs_table_idx := 0 }

/-- C4: evaluating `handleNewJob` on the syntactically invalid command `<`.
The job is discarded before `runJob` (no child is created), but the line sent
to the client is built from the error field of slot `jobs_table_idx` — one
past the failed job — so the client receives `-yash: \n` instead of the
parsed job's error message. -/
theorem claim_C4_error_report_wrong_slot :
    (handleNewJob ["<"] emptyState).ranJob = false ∧
    ((handleNewJob ["<"] emptyState).state.jobs_table 0).err_msg =
      SYNTAX_ERR_1 ++ "<" ∧
    (handleNewJob ["<"] emptyState).sent = ["-yash: \n"] ∧
    (handleNewJob ["<"] emptyState).sent ≠
      ["-yash: " ++ ((handleNewJob ["<"] emptyState).state.jobs_table 0).err_msg
        ++ "\n"] := by
  decide

/-! ## Foreground wait loop (waitForChildren, src/shell.c:535-602) -/

/-- One observation returned by `waitpid(gpid, &status, WUNTRACED)`:
a normal exit, a termination by signal, a stop by signal, or a `waitpid`
failure (return value `SYSCALL_RETURN_ERR`). -/
inductive WaitEvent where
  | exited
  | signaled
  | stopped
  | waitError
deriving DecidableEq

/-- The `while (count < child_num)` loop of `waitForChildren`
(src/shell.c:553-601) over the sequence of `waitpid` observations.  The
result is `some k` when the loop terminates normally after consuming `k`
observations; `none` when `waitpid` fails (the early return that sets
`err_msg`, src/shell.c:567-573) or the observation sequence is exhausted.
Exits and signal terminations increment `count`; stops leave it unchanged. -/
def waitForChildrenLoop (childNum : Nat) : Nat → List WaitEvent → Option Nat
  | count, evs =>
    if count < childNum then
      match evs with
      | [] => none
      | e :: rest =>
        match e with
        | WaitEvent.waitError => none
        | WaitEvent.stopped =>
          Option.map (fun n => n + 1) (waitForChildrenLoop childNum count rest)
        | _ =>
          Option.map (fun n => n + 1)
            (waitForChildrenLoop childNum (count + 1) rest)
    else
      some 0

/-- `waitForChildren` (src/shell.c:535-602): the number of children to await
is `CHILD_COUNT_PIPE` (2) for a piped job and `CHILD_COUNT_SIMPLE` (1)
otherwise (src/shell.c:546-550). -/
def waitForChildren (pipe : Bool) (evs : List WaitEvent) : Option Nat :=
  waitForChildrenLoop (if pipe then CHILD_COUNT_PIPE else CHILD_COUNT_SIMPLE)
    0 evs

/-- Number of exit-or-signal terminations in an observation sequence. -/
def terminationCount : List WaitEvent → Nat
  | [] => 0
  | WaitEvent.exited :: rest => terminationCount rest + 1
  | WaitEvent.signaled :: rest => terminationCount rest + 1
  | _ :: rest => terminationCount rest

theorem waitForChildrenLoop_spec (childNum : Nat) (evs : List WaitEvent) :
    ∀ (count k : Nat), count ≤ childNum →
      waitForChildrenLoop childNum count evs = some k →
      count + terminationCount (evs.take k) = childNum ∧
      ∀ j, j < k → count + terminationCount (evs.take j) < childNum := by
  induction evs with
  | nil =>
    intro count k hle h
    rw [waitForChildrenLoop.eq_def] at h
    by_cases hcnt : count < childNum
    · simp [hcnt] at h
    · simp [hcnt] at h
      subst h
      constructor
      · simpa [terminationCount] using Nat.le_antisymm hle (Nat.le_of_not_lt hcnt)
      · intro j hj
        omega
  | cons e rest ih =>
    intro count k hle h
    rw [waitForChildrenLoop.eq_def] at h
    by_cases hcnt : count < childNum
    · simp only [hcnt, if_true] at h
      cases e with
      | waitError => simp at h
      | stopped =>
        rcases Option.map_eq_some.mp h with ⟨k0, hk0, hk⟩
        subst hk
        rcases ih count k0 hle hk0 with ⟨heq, hmin⟩
        constructor
        · simpa [List.take, terminationCount] using heq
        · intro j hj
          cases j with
          | zero => simpa [terminationCount] using hcnt
          | succ j0 =>
            have := hmin j0 (by omega)
            simpa [List.take, terminationCount] using this
      | exited =>
        rcases Option.map_eq_some.mp h with ⟨k0, hk0, hk⟩
        subst hk
        rcases ih (count + 1) k0 hcnt hk0 with ⟨heq, hmin⟩
        constructor
        · have : count + (terminationCount (rest.take k0) + 1) =
              count + 1 + terminationCount (rest.take k0) := by omega
          simpa [List.take, terminationCount, this] using heq
        · intro j hj
          cases j with
          | zero => simpa [terminationCount] using hcnt
          | succ j0 =>
            have := hmin j0 (by omega)
            have harith : count + (terminationCount (rest.take j0) + 1) =
                count + 1 + terminationCount (rest.take j0) := by omega
            simpa [List.take, terminationCount, harith] using this
      | signaled =>
        rcases Option.map_eq_some.mp h with ⟨k0, hk0, hk⟩
        subst hk
        rcases ih (count + 1) k0 hcnt hk0 with ⟨heq, hmin⟩
        constructor
        · have : count + (terminationCount (rest.take k0) + 1) =
              count + 1 + terminationCount (rest.take k0) := by omega
          simpa [List.take, terminationCount, this] using heq
        · intro j hj
          cases j with
          | zero => simpa [terminationCount] using hcnt
          | succ j0 =>
            have := hmin j0 (by omega)
            have harith : count + (terminationCount (rest.take j0) + 1) =
                count + 1 + terminationCount (rest.take j0) := by omega
            simpa [List.take, terminationCount, harith] using this
    · simp only [hcnt, if_false] at h
      have hk : k = 0 := (Option.some.inj h).symm
      subst hk
      constructor
      · simpa [terminationCount] using Nat.le_antisymm hle (Nat.le_of_not_lt hcnt)
      · intro j hj
        omega

/-- C6: whenever the foreground wait loop returns normally after consuming
`k` observations, the consumed observations contain exactly `child_num`
exit-or-signal terminations — 2 for a piped job, 1 for a simple one — and at
every earlier point fewer than `child_num` terminations had been observed
(stopped children never advance the counter). -/
theorem claim_C6_waitForChildren_counts (pipe : Bool) (evs : List WaitEvent)
    (k : Nat) (h : waitForChildren pipe evs = some k) :
    terminationCount (evs.take k) =
      (if pipe then CHILD_COUNT_PIPE else CHILD_COUNT_SIMPLE) ∧
    ∀ j, j < k → terminationCount (evs.take j) <
      (if pipe then CHILD_COUNT_PIPE else CHILD_COUNT_SIMPLE) := by
  have := waitForChildrenLoop_spec
    (if pipe then CHILD_COUNT_PIPE else CHILD_COUNT_SIMPLE) evs 0 k
    (Nat.zero_le _) h
  simpa using this

theorem claim_C6_waitForChildren_counts_witness :
    terminationCount (([WaitEvent.stopped, WaitEvent.exited] :
        List WaitEvent).take 2) = CHILD_COUNT_SIMPLE ∧
    ∀ j, j < 2 → terminationCount (([WaitEvent.stopped, WaitEvent.exited] :
        List WaitEvent).take j) < CHILD_COUNT_SIMPLE := by
  have := claim_C6_waitForChildren_counts false
    [WaitEvent.stopped, WaitEvent.exited] 2 (by decide)
  simpa using this

/-! ## Background maintenance (maintainJobsTable, src/shell.c:876-908) -/

/-- One observation returned by
`waitpid(gpid, &status, WNOHANG|WUNTRACED|WCONTINUED)` for a live job's
group. -/
inductive WaitObs where
  | exited
  | signaled
  | stopped
  | continued
deriving DecidableEq

/-- Overwrite the status string of slot `i` (the `strcpy` calls at
src/shell.c:889, 895, 901, 904). -/
def setStatus (i : Nat) (st : String) (s : shell_info_t) : shell_info_t :=
  { s with jobs_table :=
      updateTable s.jobs_table i { s.jobs_table i with status := st } }

/-- The scan loop of `maintainJobsTable` (src/shell.c:878-907).  `obs i` is
the `waitpid` observation for the group of the job in slot `i`.  The loop
condition `i < jobs_table_idx` re-reads the count, which `removeJob` may have
shrunk; the fuel argument (instantiated with the initial count, an upper
bound on the number of iterations since `i` strictly increases and the count
never grows) makes the recursion structural.  The returned list records the
slots whose job line `printJob` reported before removal. -/
def maintainLoop (obs : Nat → WaitObs) :
    Nat → Nat → shell_info_t → shell_info_t × List Nat
  | 0, _, s => (s, [])
  | fuel + 1, i, s =>
    if i < s.jobs_table_idx then
      if (s.jobs_table i).status = JOB_STATUS_RUNNING ∨
          (s.jobs_table i).status = JOB_STATUS_STOPPED then
        match obs i with
        | WaitObs.exited =>
          let s2 := removeJob i (setStatus i JOB_STATUS_DONE s)
          let r := maintainLoop obs fuel (i + 1) s2
          (r.1, i :: r.2)
        | WaitObs.signaled =>
          let s2 := removeJob i (setStatus i JOB_STATUS_DONE s)
          let r := maintainLoop obs fuel (i + 1) s2
          (r.1, i :: r.2)
        | WaitObs.stopped =>
          maintainLoop obs fuel (i + 1) (setStatus i JOB_STATUS_STOPPED s)
        | WaitObs.continued =>
          maintainLoop obs fuel (i + 1) (setStatus i JOB_STATUS_RUNNING s)
      else
        maintainLoop obs fuel (i + 1) s
    else
      (s, [])

/-- One pass of `maintainJobsTable` (src/shell.c:876-908). -/
def maintainJobsTable (obs : Nat → WaitObs) (s : shell_info_t) :
    shell_info_t × List Nat :=
  maintainLoop obs s.jobs_table_idx 0 s

/-- Group of job 1 exited; group of job 2 was stopped by a signal. -/
def obsExitedThenStopped : Nat → WaitObs :=
  fun k => if k = 0 then WaitObs.exited else WaitObs.stopped

/-- C7: one maintenance pass over two Running jobs whose groups were observed
exited (job 1) and signal-stopped (job 2).  Job 1 is reported and removed,
but the buggy `removeJob` shrinks the count to 1, so the scan stops before
slot 1: job 2 is never polled, keeps status Running instead of the
documented Stopped, and only slot 0 is reported. -/
theorem claim_C7_maintain_skips_live_job :
    ((maintainJobsTable obsExitedThenStopped twoRunningJobs).1.jobs_table 1).status
        = JOB_STATUS_RUNNING ∧
    ((maintainJobsTable obsExitedThenStopped twoRunningJobs).1.jobs_table 1).status
        ≠ JOB_STATUS_STOPPED ∧
    (maintainJobsTable obsExitedThenStopped twoRunningJobs).1.jobs_table_idx = 1 ∧
    (maintainJobsTable obsExitedThenStopped twoRunningJobs).2 = [0] := by
  decide

/-! ## Framed message codec (recvMsg / sendMsg, src/yashd.c:425-554) -/

/-- The first loop of `recvMsg` (src/yashd.c:434-471): read byte-by-byte,
discarding bytes until a pair of `MSG_START_DELIMITER` (0x02) bytes is seen;
when a lone 0x02 is followed by something else, both bytes are dropped.
`none` models the `return -1` paths (socket closed or error, here: stream
exhausted). -/
def recvSkip : List Nat → Option (List Nat)
  | [] => none
  | b :: rest =>
    if b = MSG_START_DELIMITER then
      match rest with
      | [] => none
      | b2 :: rest2 =>
        if b2 = MSG_START_DELIMITER then some rest2 else recvSkip rest2
    else recvSkip rest

/-- The second loop of `recvMsg` (src/yashd.c:474-511): accumulate payload
bytes (incrementing `msg_size` for each) until a pair of `MSG_END_DELIMITER`
(0x03) bytes is seen; a lone 0x03 followed by something else drops both
bytes without saving them.  Returns the accumulated message and its size. -/
def recvAccum : List Nat → Option (List Nat × Nat)
  | [] => none
  | b :: rest =>
    if b = MSG_END_DELIMITER then
      match rest with
      | [] => none
      | b2 :: rest2 =>
        if b2 = MSG_END_DELIMITER then some ([], 0)
        else recvAccum rest2
    else
      Option.map (fun r => (b :: r.1, r.2 + 1)) (recvAccum rest)

/-- `recvMsg` (src/yashd.c:425-517) over the byte stream read from the
socket: find the start delimiter pair, then accumulate until the end
delimiter pair; the result carries the message bytes and the returned
`msg_size`. -/
def recvMsg (stream : List Nat) : Option (List Nat × Nat) :=
  (recvSkip stream).bind recvAccum

/-- `sendMsg` (src/yashd.c:528-554): the wire bytes are two 0x02 bytes, the
payload, and two 0x03 bytes (the `buf` of size `msg_size + 4` built at
src/yashd.c:532-547). -/
def sendMsg (payload : List Nat) : List Nat :=
  MSG_START_DELIMITER :: MSG_START_DELIMITER ::
    (payload ++ [MSG_END_DELIMITER, MSG_END_DELIMITER])

theorem recvSkip_garbage (g rest : List Nat)
    (hg : ∀ b ∈ g, b ≠ MSG_START_DELIMITER) :
    recvSkip (g ++ MSG_START_DELIMITER :: MSG_START_DELIMITER :: rest) =
      some rest := by
  induction g with
  | nil =>
    rw [List.nil_append, recvSkip.eq_def]
    simp
  | cons b g ih =>
    have hb : b ≠ MSG_START_DELIMITER := hg b (by simp)
    rw [List.cons_append, recvSkip.eq_def]
    simp only [hb, if_false, if_neg hb]
    exact ih (fun x hx => hg x (by simp [hx]))

theorem recvAccum_payload (p rest : List Nat)
    (hp : ∀ b ∈ p, b ≠ MSG_END_DELIMITER) :
    recvAccum (p ++ MSG_END_DELIMITER :: MSG_END_DELIMITER :: rest) =
      some (p, p.length) := by
  induction p with
  | nil =>
    rw [List.nil_append, recvAccum.eq_def]
    simp
  | cons b p ih =>
    have hb : b ≠ MSG_END_DELIMITER := hp b (by simp)
    rw [List.cons_append, recvAccum.eq_def]
    simp only [if_neg hb]
    rw [ih (fun x hx => hp x (by simp [hx]))]
    simp

/-- C8: framing round-trips.  For any payload free of 0x02 and 0x03 bytes,
receiving the bytes produced by `sendMsg` — possibly preceded by garbage
free of 0x02 — yields exactly the payload, with the payload length as the
returned size. -/
theorem claim_C8_roundtrip (garbage payload : List Nat)
    (hg : ∀ b ∈ garbage, b ≠ MSG_START_DELIMITER)
    (hp : ∀ b ∈ payload, b ≠ MSG_START_DELIMITER ∧ b ≠ MSG_END_DELIMITER) :
    recvMsg (garbage ++ sendMsg payload) = some (payload, payload.length) := by
  unfold recvMsg sendMsg
  rw [recvSkip_garbage garbage _ hg]
  rw [Option.some_bind]
  have : payload ++ [MSG_END_DELIMITER, MSG_END_DELIMITER] =
      payload ++ MSG_END_DELIMITER :: MSG_END_DELIMITER :: [] := rfl
  rw [this]
  exact recvAccum_payload payload [] (fun b hb => (hp b hb).2)

theorem claim_C8_roundtrip_witness :
    recvMsg ([65] ++ sendMsg [72, 73]) = some ([72, 73], 2) :=
  claim_C8_roundtrip [65] [72, 73] (by decide) (by decide)

/-! ## Message parsing (parseMessage, src/yashd.c:878-919) -/

/-- Embedding of `msg_args_t` (src/yashd.h:219-222). -/
structure msg_args_t where
  type : String
  args : String
deriving DecidableEq

/-- src/yashd.c:886-888: replace a trailing newline with the terminator,
shortening the string. -/
def stripTrailingNewline (cs : List Char) : List Char :=
  if cs.getLast? = some '\n' then cs.dropLast else cs

/-- `parseMessage` (src/yashd.c:878-919).  `none` models the undefined
behaviour paths: the `msg[len_orig - 1]` read on an empty string, and the
`strcpy` calls whose `strtok` source is NULL.  `strtok(buf, " ")` skips
leading spaces and returns NULL at the end of the string; the `'\0'` it
writes after the token makes `strlen(buf)` (`len_first`) equal to the leading
spaces plus the token length.  `strtok(NULL, "\0")` has an empty delimiter
set: it returns the whole remainder after the written terminator, or NULL if
that remainder is empty or the first token already reached the end of `buf`.
Note `len_orig` is measured before the newline is stripped
(src/yashd.c:884-891). -/
def parseMessage (msg : String) : Option msg_args_t :=
  let cs := msg.data
  let lenOrig := cs.length
  if lenOrig = 0 then none
  else
    let buf := stripTrailingNewline cs
    if lenOrig ≤ 5 then some { type := "", args := "" }
    else
      let rest0 := buf.dropWhile (fun c => c == ' ')
      let lead := buf.length - rest0.length
      match rest0 with
      | [] => none
      | _ :: _ =>
        let tok := rest0.takeWhile (fun c => !(c == ' '))
        let lenFirst := lead + tok.length
        if lenOrig ≤ lenFirst then some { type := "", args := "" }
        else
          match rest0.dropWhile (fun c => !(c == ' ')) with
          | [] => none
          | _ :: afterRest =>
            match afterRest with
            | [] => none
            | _ :: _ =>
              some { type := String.mk tok, args := String.mk afterRest }

/-- C9: evaluating `parseMessage`.  A well-formed payload splits on the first
space into type and arguments; a payload of at most 5 bytes yields the empty
(malformed) result, as does a payload with no space when its pre-strip length
equals the token length.  But a no-argument payload with a trailing newline
(`CMDabc\n`, or `CMDX \n`) passes the `len_first >= len_orig` guard — the
lengths are measured before and after the newline strip — and then `strcpy`
copies from a NULL `strtok` result instead of returning the empty struct. -/
theorem claim_C9_parseMessage_eval :
    parseMessage "CMD ls\n" = some { type := "CMD", args := "ls" } ∧
    parseMessage "CTL c\n" = some { type := "CTL", args := "c" } ∧
    parseMessage "CMD a" = some { type := "", args := "" } ∧
    parseMessage "CMD \n" = some { type := "", args := "" } ∧
    parseMessage "CMDabc" = some { type := "", args := "" } ∧
    parseMessage "CMDabc\n" = none ∧
    parseMessage "CMDX \n" = none := by
  decide

/-! ## Thread tables (src/yashd.c) -/

/-- Embedding of `servant_th_info_t` (src/yashd.h:117-123); `tid` is the
pthread id. -/
structure servant_th_info_t where
  tid : Nat := 0
  run : Bool := false
  socket : Int := 0

/-- The process-wide servant thread table (src/yashd.c:19-20). -/
structure servant_table_t where
  servant_th_table : Nat → servant_th_info_t
  servant_th_table_idx : Nat

/-- The shrink loop of `removeServantThFromTableByIdx` (src/yashd.c:620-627):
`i` runs from the initial count minus one down to zero (the first argument),
and the count (the second argument) is decremented while `table[i].run` is
false, stopping at the last running thread. -/
def removeServantLoop (t : Nat → servant_th_info_t) : Nat → Nat → Nat
  | 0, cnt => cnt
  | i + 1, cnt =>
    if (t i).run = false then removeServantLoop t i (cnt - 1) else cnt

/-- `removeServantThFromTableByIdx` (src/yashd.c:602-630): out-of-bounds
indices return with the table untouched; otherwise the entry is cleared and
the count lowered past trailing finished entries. -/
def removeServantThFromTableByIdx (idx : Int) (s : servant_table_t) :
    servant_table_t :=
  if idx < 0 ∨ (s.servant_th_table_idx : Int) ≤ idx then s
  else
    let n := idx.toNat
    let cleared :=
      { s.servant_th_table n with tid := 0, run := false, socket := 0 }
    let t := fun k => if k = n then cleared else s.servant_th_table k
    { servant_th_table := t,
      servant_th_table_idx :=
        removeServantLoop t s.servant_th_table_idx s.servant_th_table_idx }

/-- Embedding of `job_th_info_t` (src/yashd.h:174-180). -/
structure job_th_info_t where
  tid : Nat := 0
  run : Bool := false
  jobno : Int := 0

/-- The per-client job thread table (fields `job_th_table` and
`job_th_table_idx` of the shell info struct, src/yashd.h:191-192). -/
structure job_th_table_t where
  job_th_table : Nat → job_th_info_t
  job_th_table_idx : Nat

/-- The shrink loop of `removeJobThFromTableByIdx` (src/yashd.c:776-783). -/
def removeJobThLoop (t : Nat → job_th_info_t) : Nat → Nat → Nat
  | 0, cnt => cnt
  | i + 1, cnt =>
    if (t i).run = false then removeJobThLoop t i (cnt - 1) else cnt

/-- `removeJobThFromTableByIdx` (src/yashd.c:757-786): out-of-bounds indices
return with the table untouched; otherwise the entry is cleared and the
count lowered past trailing finished entries. -/
def removeJobThFromTableByIdx (idx : Int) (s : job_th_table_t) :
    job_th_table_t :=
  if idx < 0 ∨ (s.job_th_table_idx : Int) ≤ idx then s
  else
    let n := idx.toNat
    let cleared := { s.job_th_table n with tid := 0, run := false, jobno := 0 }
    let t := fun k => if k = n then cleared else s.job_th_table k
    { job_th_table := t,
      job_th_table_idx :=
        removeJobThLoop t s.job_th_table_idx s.job_th_table_idx }

/-- C10: removing by an index that is negative or not below the current
count leaves the servant thread table, respectively the job thread table,
entirely unchanged — every entry and the count. -/
theorem claim_C10_remove_out_of_range_noop (idx : Int)
    (sS : servant_table_t) (sJ : job_th_table_t)
    (hS : idx < 0 ∨ (sS.servant_th_table_idx : Int) ≤ idx)
    (hJ : idx < 0 ∨ (sJ.job_th_table_idx : Int) ≤ idx) :
    removeServantThFromTableByIdx idx sS = sS ∧
    removeJobThFromTableByIdx idx sJ = sJ := by
  constructor
  · unfold removeServantThFromTableByIdx
    rw [if_pos hS]
  · unfold removeJobThFromTableByIdx
    rw [if_pos hJ]

/-- A servant table with one running thread. -/
def sampleServantTable : servant_table_t :=
  { servant_th_table := fun k =>
      if k = 0 then { tid := 7, run := true, socket := 5 } else {},
    servant_th_table_idx := 1 }

/-- A job thread table with one running thread. -/
def sampleJobThTable : job_th_table_t :=
  { job_th_table := fun k =>
      if k = 0 then { tid := 9, run := true, jobno := 1 } else {},
    job_th_table_idx := 1 }

theorem claim_C10_remove_out_of_range_noop_witness :
    removeServantThFromTableByIdx 3 sampleServantTable = sampleServantTable ∧
    removeJobThFromTableByIdx 3 sampleJobThTable = sampleJobThTable :=
  claim_C10_remove_out_of_range_noop 3 sampleServantTable sampleJobThTable
    (Or.inr (by decide)) (Or.inr (by decide))

end Yashd
